import Mathlib

/-!
Verification of the foxterm terminal-emulation core.

A shallow embedding of the screen/cursor model of the foxterm terminal
emulator (src/terminal/mod.rs), together with theorems settling the claims
of the specification against it.

Positions are embedded as pairs of rationals: the source uses f32 in
normalized device coordinates and the specification reasons about the
arithmetic at the level of exact real arithmetic; all inputs appearing in
the claims are small dyadic rationals, on which f32 arithmetic and rational
arithmetic agree.
-/

/-- Embeds cgmath Vector2 of f32 as a pair of rationals. -/
structure Vec2 where
  x : ℚ
  y : ℚ
deriving DecidableEq

/-- Embeds cgmath Vector4 of f32 (the foreground color). -/
structure Vec4 where
  x : ℚ
  y : ℚ
  z : ℚ
  w : ℚ
deriving DecidableEq

/-- Modelled from the spec: the Glyph record of the FontProvider collaborator
(src/loaded_font/chr.rs is not part of the specified core sources): bearing
(x, y offset from pen position to glyph origin) and dimensions (advance
width/height); the opaque texture handle is irrelevant to the core and
omitted. -/
structure Chr where
  bearing : Vec2
  dimensions : Vec2
deriving DecidableEq

/-- Embeds RenderItem (src/terminal/drawable.rs, known through the spec data
model and the renderer): a glyph reference or a blank placeholder. -/
inductive RenderItem where
  | chr (c : Chr)
  | space
deriving DecidableEq

/-- Embeds Drawable (src/terminal/drawable.rs): one renderable unit with a
fixed position. -/
structure Drawable where
  render_item : RenderItem
  pos : Vec2
deriving DecidableEq

/-- Modelled from the spec: the FontProvider collaborator (LoadedFont):
the cell pitch and a pure lookup from a single-byte character code to an
optional glyph. -/
structure LoadedFont where
  scale : ℚ
  get_chr_by_id : Nat → Option Chr

/-- Embeds the Performer state (src/terminal/mod.rs lines 132-137): shared
font, shared screen buffer, current color, pen position. -/
structure Performer where
  font : LoadedFont
  screen : List Drawable
  color : Vec4
  pos : Vec2

/-- Embeds Performer::new (src/terminal/mod.rs lines 140-152). -/
def Performer.new (font : LoadedFont) (screen : List Drawable) (color : Vec4)
    (pos : Vec2) : Performer :=
  ⟨font, screen, color, pos⟩

/-- Embeds Performer::default (src/terminal/mod.rs lines 154-156):
color Vector4::zero(), position Vector2::from_value(-1.0). -/
def Performer.default (font : LoadedFont) (screen : List Drawable) : Performer :=
  Performer.new font screen ⟨0, 0, 0, 0⟩ ⟨-1, -1⟩

/-- Embeds update_x (src/terminal/mod.rs lines 260-272): horizontal wrap of
the pen position.  Note the source parenthesization: the ceiling is taken of
the quotient pos.x / 2. -/
def update_x (pos : Vec2) (scale : ℚ) : Vec2 :=
  if 1 - scale / 2 < pos.x then
    ⟨-2 + pos.x + scale / 2, pos.y + scale * (⌈pos.x / 2⌉ : ℚ)⟩
  else if pos.x < -1 then
    ⟨2 + pos.x - scale / 2, pos.y - scale * (⌈pos.x / (-2)⌉ : ℚ)⟩
  else
    pos

/-- Embeds update_y (src/terminal/mod.rs lines 274-286): vertical scroll.
The source computes the shift as scale * (pos.y / (1.0 - scale).ceil()),
with the ceiling applied to the constant 1 - scale (not to the quotient);
the embedding reproduces that parenthesization.  The Vec retain_mut shifts
every Drawable down by dif and keeps those with resulting y > -1. -/
def update_y (pos : Vec2) (scale : ℚ) (screen : List Drawable) :
    Vec2 × List Drawable :=
  if 1 - scale < pos.y then
    let dif := scale * (pos.y / (⌈1 - scale⌉ : ℚ))
    (⟨pos.x, pos.y - dif⟩,
      (screen.map fun d => { d with pos := ⟨d.pos.x, d.pos.y - dif⟩ }).filter
        fun d => decide (-1 < d.pos.y))
  else
    (pos, screen)

/-- Embeds update_pos (src/terminal/mod.rs lines 288-291): horizontal wrap
followed by vertical scroll. -/
def update_pos (pos : Vec2) (scale : ℚ) (screen : List Drawable) :
    Vec2 × List Drawable :=
  update_y (update_x pos scale) scale screen

/-- Embeds Performer::add_chr (src/terminal/mod.rs lines 158-172): advance
pen x by the glyph bearing x, append a glyph Drawable at
(pen.x, pen.y - bearing.y), advance pen x by the glyph width, normalize. -/
def add_chr (p : Performer) (chr : Chr) : Performer :=
  let x1 := p.pos.x + chr.bearing.x
  let dpos : Vec2 := ⟨x1, p.pos.y - chr.bearing.y⟩
  let screen1 := p.screen ++ [Drawable.mk (RenderItem.chr chr) dpos]
  let pos2 : Vec2 := ⟨x1 + chr.dimensions.x, p.pos.y⟩
  let r := update_pos pos2 p.font.scale screen1
  { p with pos := r.1, screen := r.2 }

/-- Embeds Performer::add_space (src/terminal/mod.rs lines 174-182): append
a blank Drawable at the pen position, advance pen x by half the pitch,
normalize. -/
def add_space (p : Performer) : Performer :=
  let screen1 := p.screen ++ [Drawable.mk RenderItem.space p.pos]
  let pos1 : Vec2 := ⟨p.pos.x + p.font.scale / 2, p.pos.y⟩
  let r := update_pos pos1 p.font.scale screen1
  { p with pos := r.1, screen := r.2 }

/-- Embeds Perform::print (src/terminal/mod.rs lines 221-225): look the
glyph up by the character code narrowed to a byte (the Rust cast c as u8);
on a miss the event is a no-op. -/
def print (p : Performer) (c : Char) : Performer :=
  match p.font.get_chr_by_id (c.toNat % 256) with
  | some chr => add_chr p chr
  | none => p

/-- Embeds the backspace scan loop of Performer::advance_parser
(src/terminal/mod.rs lines 195-203): first Drawable whose y equals the
target y and whose x is at least the target x; returns its position and the
list with it removed. -/
def removeFirst (t : Vec2) : List Drawable → Option (Vec2 × List Drawable)
  | [] => none
  | d :: ds =>
    if d.pos.y = t.y ∧ t.x ≤ d.pos.x then
      some (d.pos, ds)
    else
      Option.map (fun r => (r.1, d :: r.2)) (removeFirst t ds)

/-- Embeds the backspace branch of Performer::advance_parser
(src/terminal/mod.rs lines 185-205): compute the deletion target by
stepping back half the pitch and normalizing (the normalization may mutate
the screen), scan for the first matching Drawable, remove it and take its
position if found, then re-normalize. -/
def backspace (p : Performer) : Performer :=
  let r0 := update_pos ⟨p.pos.x - p.font.scale / 2, p.pos.y⟩ p.font.scale p.screen
  let step :=
    match removeFirst r0.1 r0.2 with
    | some q => q
    | none => (p.pos, r0.2)
  let r := update_pos step.1 p.font.scale step.2
  { p with pos := r.1, screen := r.2 }

/-- Modelled from the spec: the general VT decoder of §4.3 is the external
vte crate, not part of this repository.  Only its ground-state behavior is
modelled: a printable byte (0x20-0x7E) dispatches print; every other byte
is consumed by the state machine with no Performer effect. -/
def parserAdvance (p : Performer) (u : Nat) : Performer :=
  if 32 ≤ u ∧ u ≤ 126 then print p (Char.ofNat u) else p

/-- Embeds Performer::advance_parser (src/terminal/mod.rs lines 184-217):
byte 8 runs the backspace handler, byte 32 runs add_space followed by a
second normalization, everything else goes to the general decoder. -/
def advance_byte (p : Performer) (u : Nat) : Performer :=
  if u = 8 then
    backspace p
  else if u = 32 then
    let p1 := add_space p
    let r := update_pos p1.pos p1.font.scale p1.screen
    { p1 with pos := r.1, screen := r.2 }
  else
    parserAdvance p u

/-- Embeds Perform::csi_dispatch (src/terminal/mod.rs lines 227-257).
Parameters are embedded as a list of sub-parameter groups; the source
matches the first group against [0] or [].  Action K sets pen x to
1 + scale / 2; action C advances pen x by scale / 2 times the parameter
(1 when the group is [0] or []).  Normalization always runs afterwards. -/
def csi_dispatch (p : Performer) (params : List (List Nat)) (action : Char) :
    Performer :=
  let pos1 : Vec2 :=
    if action = 'K' then
      match params.head? with
      | some [0] => ⟨1 + p.font.scale / 2, p.pos.y⟩
      | some [] => ⟨1 + p.font.scale / 2, p.pos.y⟩
      | _ => p.pos
    else if action = 'C' then
      match params.head? with
      | some [0] => ⟨p.pos.x + p.font.scale / 2, p.pos.y⟩
      | some [] => ⟨p.pos.x + p.font.scale / 2, p.pos.y⟩
      | some [n] => ⟨p.pos.x + p.font.scale / 2 * (n : ℚ), p.pos.y⟩
      | _ => p.pos
    else
      p.pos
  let r := update_pos pos1 p.font.scale p.screen
  { p with pos := r.1, screen := r.2 }

/-- The error conditions distinguished by the reader loop: the EBADF
closed-descriptor signal versus any other errno. -/
inductive Errno where
  | EBADF
  | other (n : Nat)
deriving DecidableEq

/-- The outcome of one blocking Pty::read. -/
inductive ReadResult where
  | ok (buf : List Nat)
  | err (e : Errno)
deriving DecidableEq

/-- Embeds one iteration of the reader loop (src/terminal/mod.rs lines
88-105): on a successful read every byte of the chunk is fed through
advance_byte in order; on EBADF the loop breaks; on any other error it
logs and continues.  The Bool records whether the loop exits. -/
def reader_step (p : Performer) (r : ReadResult) : Bool × Performer :=
  match r with
  | ReadResult.ok buf => (false, buf.foldl advance_byte p)
  | ReadResult.err e =>
    match e with
    | Errno.EBADF => (true, p)
    | Errno.other _ => (false, p)

/-- A glyph with the metrics of end-to-end scenario 1 of the spec:
bearing (0.01, 0.05), advance width 0.08. -/
def chrA : Chr := ⟨⟨1/100, 1/20⟩, ⟨2/25, 1/10⟩⟩

/-- A glyph with zero bearing and advance width 0.05 (half the test pitch). -/
def chrB : Chr := ⟨⟨0, 0⟩, ⟨1/20, 1/20⟩⟩

/-- A concrete font with pitch 0.1 mapping the code of a to chrA and the
code of b to chrB. -/
def testFont : LoadedFont :=
  ⟨1/10, fun n => if n = 97 then some chrA else if n = 98 then some chrB else none⟩

/-- A concrete Performer over testFont with an empty screen and the pen at
the origin. -/
def testPerformer : Performer :=
  ⟨testFont, [], ⟨0, 0, 0, 0⟩, ⟨0, 0⟩⟩

/-- A concrete Performer over testFont whose screen holds one blank
Drawable at (1/2, 0), in the pen row half a pitch to the left of the pen. -/
def backspace_target_performer : Performer :=
  ⟨testFont, [Drawable.mk RenderItem.space ⟨1/2, 0⟩], ⟨0, 0, 0, 0⟩,
    ⟨11/20, 0⟩⟩

theorem update_x_id (pos : Vec2) (scale : ℚ) (h1 : pos.x ≤ 1 - scale / 2)
    (h2 : -1 ≤ pos.x) : update_x pos scale = pos := by
  rw [update_x, if_neg (not_lt.mpr h1), if_neg (not_lt.mpr h2)]

theorem update_y_id (pos : Vec2) (scale : ℚ) (screen : List Drawable)
    (h : pos.y ≤ 1 - scale) : update_y pos scale screen = (pos, screen) := by
  rw [update_y, if_neg (not_lt.mpr h)]

theorem update_pos_id (pos : Vec2) (scale : ℚ) (screen : List Drawable)
    (h1 : -1 ≤ pos.x) (h2 : pos.x ≤ 1 - scale / 2) (h3 : pos.y ≤ 1 - scale) :
    update_pos pos scale screen = (pos, screen) := by
  rw [update_pos, update_x_id pos scale h2 h1, update_y_id pos scale screen h3]

theorem update_pos_id_xy (x y scale : ℚ) (screen : List Drawable)
    (h1 : -1 ≤ x) (h2 : x ≤ 1 - scale / 2) (h3 : y ≤ 1 - scale) :
    update_pos ⟨x, y⟩ scale screen = (⟨x, y⟩, screen) :=
  update_pos_id ⟨x, y⟩ scale screen h1 h2 h3

/-- Claim C10: a freshly constructed Performer has pen position (-1, -1), the
corner of normalized space on the scroll-eviction floor y = -1, and
foreground color (0, 0, 0, 0). -/
theorem performer_default_initial_state (font : LoadedFont)
    (screen : List Drawable) :
    (Performer.default font screen).pos = ⟨-1, -1⟩ ∧
    (Performer.default font screen).pos.y = -1 ∧
    (Performer.default font screen).color = ⟨0, 0, 0, 0⟩ :=
  ⟨rfl, rfl, rfl⟩

/-- Claim C9: one iteration of the reader loop exits exactly when the read fails
with EBADF, and on any read error (EBADF included) the screen buffer is
left unchanged for that iteration. -/
theorem reader_step_exit_iff (p : Performer) (r : ReadResult) :
    ((reader_step p r).1 = true ↔ r = ReadResult.err Errno.EBADF) ∧
    (∀ e : Errno, r = ReadResult.err e → (reader_step p r).2.screen = p.screen) := by
  constructor
  · cases r with
    | ok buf => simp [reader_step]
    | err e => cases e <;> simp [reader_step]
  · intro e he
    subst he
    cases e <;> rfl

theorem reader_step_exit_iff_witness :
    (reader_step testPerformer (ReadResult.err (Errno.other 5))).2.screen =
      testPerformer.screen ∧
    (reader_step testPerformer (ReadResult.err Errno.EBADF)).1 = true :=
  ⟨(reader_step_exit_iff testPerformer (ReadResult.err (Errno.other 5))).2
      (Errno.other 5) rfl,
   (reader_step_exit_iff testPerformer (ReadResult.err Errno.EBADF)).1.mpr rfl⟩

/-- Claim C1: evaluation of the vertical-scroll step at pitch 1/10, pen (0, 1),
one Drawable at (0, 0).  The code shifts by dif = scale * (pen.y / ceil(1 -
scale)) = 1/10, leaving pen.y = 9/10 and the Drawable at y = -1/10; the
claimed shift pitch * ceil(pen.y / (1 - pitch)) would instead be 1/5. -/
theorem update_y_dif_eval :
    (update_y ⟨0, 1⟩ (1/10) [Drawable.mk RenderItem.space ⟨0, 0⟩]).1 = ⟨0, 9/10⟩ ∧
    (update_y ⟨0, 1⟩ (1/10) [Drawable.mk RenderItem.space ⟨0, 0⟩]).2 =
      [Drawable.mk RenderItem.space ⟨0, -1/10⟩] ∧
    (9/10 : ℚ) ≠ 1 - 1/10 * (⌈(1 : ℚ) / (1 - 1/10)⌉ : ℚ) := by
  have h1 : ⌈(9 : ℚ)/10⌉ = 1 := by rw [Int.ceil_eq_iff]; norm_num
  have h2 : ⌈(1 : ℚ) / (1 - 1/10)⌉ = 2 := by rw [Int.ceil_eq_iff]; norm_num
  refine ⟨?_, ?_, ?_⟩
  · rw [update_y]; norm_num [h1]
  · rw [update_y]; norm_num [h1, List.filter]
  · rw [h2]; norm_num

/-- Claim C2: evaluation of csi_dispatch at action K, first parameter group [0],
pitch 1/10, pen (0, 0), empty screen.  The code sets pen.x to 1 + pitch/2
(beyond the right edge), and normalization then wraps the pen to
(-1 + pitch, pitch): the pen does not land on the left margin -1 + pitch/2
and its row changes. -/
theorem csi_K_eval :
    (csi_dispatch testPerformer [[0]] 'K').pos = ⟨-9/10, 1/10⟩ ∧
    (csi_dispatch testPerformer [[0]] 'K').screen = [] ∧
    (csi_dispatch testPerformer [[0]] 'K').pos ≠
      ⟨-1 + (1/10) / 2, testPerformer.pos.y⟩ := by
  have h1 : ⌈(21 : ℚ)/40⌉ = 1 := by rw [Int.ceil_eq_iff]; norm_num
  have h2 : ⌈(9 : ℚ)/10⌉ = 1 := by rw [Int.ceil_eq_iff]; norm_num
  refine ⟨?_, ?_, ?_⟩ <;>
    norm_num [csi_dispatch, update_pos, update_x, update_y, testPerformer,
      testFont, h1, h2]

/-- Claim C4, counterexample: at pitch 1/10 and pen.x = 1 - pitch/2 + epsilon
with epsilon = 1/100 (so pen.x = 24/25), the horizontal wrap yields
pen.x = -1 + epsilon = -99/100, not the claimed -1 + pitch/2 + epsilon
= -94/100. -/
theorem update_x_wrap_counterexample :
    update_x ⟨24/25, 0⟩ (1/10) = ⟨-99/100, 0 + 1/10⟩ ∧
    update_x ⟨24/25, 0⟩ (1/10) ≠ ⟨-1 + (1/10)/2 + 1/100, 0 + 1/10⟩ := by
  have h1 : ⌈(12 : ℚ)/25⌉ = 1 := by rw [Int.ceil_eq_iff]; norm_num
  constructor <;> norm_num [update_x, h1]

/-- Claim C4, amended: for p < 2 and 0 < epsilon <= 1 + p/2, from pen.x =
1 - p/2 + epsilon the horizontal wrap gives pen.x = -1 + epsilon (per the
formula new x = pen.x - 2 + pitch/2) and increases pen.y by exactly p
(ceil(pen.x / 2) = 1). -/
theorem update_x_wrap (pos : Vec2) (p e : ℚ) (hp2 : p < 2)
    (he : 0 < e) (he2 : e ≤ 1 + p / 2) (hx : pos.x = 1 - p / 2 + e) :
    update_x pos p = ⟨-1 + e, pos.y + p⟩ := by
  have hgt : 1 - p / 2 < pos.x := by rw [hx]; linarith
  have hceil : ⌈pos.x / 2⌉ = 1 := by
    rw [Int.ceil_eq_iff, hx]
    constructor <;> [push_cast; push_cast] <;> linarith
  rw [update_x, if_pos hgt, hceil]
  have h1 : -2 + pos.x + p / 2 = -1 + e := by rw [hx]; ring
  have h2 : pos.y + p * ((1 : ℤ) : ℚ) = pos.y + p := by push_cast; ring
  rw [h1, h2]

/-- Claim C8: whenever the vertical-scroll step fires, there is a single shift
dif subtracted from the pen y and from the y of every Drawable; the
Drawables kept are exactly those whose shifted y stays above -1, so no
surviving Drawable has y <= -1. -/
theorem update_y_scroll_invariant (pos : Vec2) (scale : ℚ)
    (screen : List Drawable) (h : 1 - scale < pos.y) :
    ∃ dif : ℚ,
      (update_y pos scale screen).1 = ⟨pos.x, pos.y - dif⟩ ∧
      (update_y pos scale screen).2 =
        (screen.map fun d => { d with pos := ⟨d.pos.x, d.pos.y - dif⟩ }).filter
          (fun d => decide (-1 < d.pos.y)) ∧
      ∀ d ∈ (update_y pos scale screen).2, -1 < d.pos.y := by
  refine ⟨scale * (pos.y / (⌈1 - scale⌉ : ℚ)), ?_, ?_, ?_⟩
  · rw [update_y, if_pos h]
  · rw [update_y, if_pos h]
  · intro d hd
    rw [update_y, if_pos h] at hd
    exact of_decide_eq_true (List.mem_filter.mp hd).2

theorem update_y_scroll_invariant_witness :
    (1 : ℚ) - 1/10 < 1 ∧
    ∃ dif : ℚ,
      (update_y ⟨0, 1⟩ (1/10)
        [Drawable.mk RenderItem.space ⟨1/2, 0⟩,
         Drawable.mk RenderItem.space ⟨0, -91/100⟩]).1 = ⟨(0 : ℚ), 1 - dif⟩ ∧
      (update_y ⟨0, 1⟩ (1/10)
        [Drawable.mk RenderItem.space ⟨1/2, 0⟩,
         Drawable.mk RenderItem.space ⟨0, -91/100⟩]).2 =
        ([Drawable.mk RenderItem.space ⟨1/2, 0⟩,
          Drawable.mk RenderItem.space ⟨0, -91/100⟩].map
            fun d => { d with pos := ⟨d.pos.x, d.pos.y - dif⟩ }).filter
          (fun d => decide (-1 < d.pos.y)) ∧
      ∀ d ∈ (update_y ⟨0, 1⟩ (1/10)
        [Drawable.mk RenderItem.space ⟨1/2, 0⟩,
         Drawable.mk RenderItem.space ⟨0, -91/100⟩]).2, -1 < d.pos.y :=
  ⟨by norm_num,
   update_y_scroll_invariant ⟨0, 1⟩ (1/10)
     [Drawable.mk RenderItem.space ⟨1/2, 0⟩,
      Drawable.mk RenderItem.space ⟨0, -91/100⟩] (by norm_num)⟩

/-- Claim C7, counterexample: at pitch 1/10, pen (0, 2), empty screen, one
normalization leaves pen.y = 9/5 which is still beyond 1 - pitch, so a
second normalization scrolls again and yields a different position. -/
theorem update_pos_idempotence_counterexample :
    update_pos (update_pos ⟨0, 2⟩ (1/10) []).1 (1/10)
        (update_pos ⟨0, 2⟩ (1/10) []).2 ≠
      update_pos ⟨0, 2⟩ (1/10) [] := by
  have hc : ⌈(9 : ℚ)/10⌉ = 1 := by rw [Int.ceil_eq_iff]; norm_num
  have e1 : update_pos ⟨0, 2⟩ (1/10) ([] : List Drawable) = (⟨0, 9/5⟩, []) := by
    norm_num [update_pos, update_x, update_y, hc]
  have e2 : update_pos ⟨0, 9/5⟩ (1/10) ([] : List Drawable) = (⟨0, 81/50⟩, []) := by
    norm_num [update_pos, update_x, update_y, hc]
  rw [e1, e2]
  intro h
  have := congrArg (fun q => q.1.y) h
  norm_num at this

/-- Claim C7, amended: the normalization step is idempotent whenever one
application lands the pen within bounds (-1 <= x <= 1 - pitch/2 and
y <= 1 - pitch): the second application then changes neither the pen nor
the screen.  (For positions further out of range a single application is
not enough and a second one moves the pen again.) -/
theorem update_pos_inbounds_idem (pos : Vec2) (scale : ℚ)
    (screen : List Drawable)
    (h1 : -1 ≤ (update_pos pos scale screen).1.x)
    (h2 : (update_pos pos scale screen).1.x ≤ 1 - scale / 2)
    (h3 : (update_pos pos scale screen).1.y ≤ 1 - scale) :
    update_pos (update_pos pos scale screen).1 scale
        (update_pos pos scale screen).2 =
      update_pos pos scale screen := by
  rw [update_pos_id _ _ _ h1 h2 h3]

theorem update_pos_inbounds_idem_witness :
    (-1 : ℚ) ≤ (update_pos ⟨0, 0⟩ (1/10) []).1.x ∧
    (update_pos ⟨0, 0⟩ (1/10) []).1.x ≤ 1 - (1/10) / 2 ∧
    (update_pos ⟨0, 0⟩ (1/10) []).1.y ≤ 1 - 1/10 ∧
    update_pos (update_pos ⟨0, 0⟩ (1/10) []).1 (1/10)
        (update_pos ⟨0, 0⟩ (1/10) []).2 =
      update_pos ⟨0, 0⟩ (1/10) [] := by
  have e1 : update_pos ⟨0, 0⟩ (1/10) ([] : List Drawable) = (⟨0, 0⟩, []) := by
    norm_num [update_pos, update_x, update_y]
  refine ⟨?_, ?_, ?_, ?_⟩
  · rw [e1]; norm_num
  · rw [e1]; norm_num
  · rw [e1]; norm_num
  · exact update_pos_inbounds_idem ⟨0, 0⟩ (1/10) []
      (by rw [e1]; norm_num) (by rw [e1]; norm_num) (by rw [e1]; norm_num)

/-- Claim C5: print is a no-op when the font has no glyph for the (byte-narrowed)
character code; otherwise the pen first advances by bearing.x, a glyph
Drawable is appended at (pen.x, pen.y - bearing.y), the pen advances by the
glyph width (so the pre-normalization pen x grows by exactly bearing.x +
width, strictly when that sum is positive) and wrap/scroll normalization
runs on the result. -/
theorem print_characterization (p : Performer) (c : Char) :
    (p.font.get_chr_by_id (c.toNat % 256) = none → print p c = p) ∧
    (∀ chr : Chr, p.font.get_chr_by_id (c.toNat % 256) = some chr →
      print p c =
        { p with
          pos := (update_pos ⟨p.pos.x + chr.bearing.x + chr.dimensions.x, p.pos.y⟩
              p.font.scale
              (p.screen ++ [Drawable.mk (RenderItem.chr chr)
                ⟨p.pos.x + chr.bearing.x, p.pos.y - chr.bearing.y⟩])).1,
          screen := (update_pos ⟨p.pos.x + chr.bearing.x + chr.dimensions.x, p.pos.y⟩
              p.font.scale
              (p.screen ++ [Drawable.mk (RenderItem.chr chr)
                ⟨p.pos.x + chr.bearing.x, p.pos.y - chr.bearing.y⟩])).2 } ∧
      (0 < chr.bearing.x + chr.dimensions.x →
        p.pos.x < p.pos.x + chr.bearing.x + chr.dimensions.x)) := by
  refine ⟨fun h => ?_, fun chr h => ⟨?_, fun hpos => by linarith⟩⟩
  · rw [print, h]
  · rw [print, h]; rfl

theorem print_characterization_witness :
    testPerformer.font.get_chr_by_id ((Char.toNat 'a') % 256) = some chrA ∧
    print testPerformer 'a' =
      { testPerformer with
        pos := (update_pos
            ⟨testPerformer.pos.x + chrA.bearing.x + chrA.dimensions.x,
             testPerformer.pos.y⟩ testPerformer.font.scale
            (testPerformer.screen ++ [Drawable.mk (RenderItem.chr chrA)
              ⟨testPerformer.pos.x + chrA.bearing.x,
               testPerformer.pos.y - chrA.bearing.y⟩])).1,
        screen := (update_pos
            ⟨testPerformer.pos.x + chrA.bearing.x + chrA.dimensions.x,
             testPerformer.pos.y⟩ testPerformer.font.scale
            (testPerformer.screen ++ [Drawable.mk (RenderItem.chr chrA)
              ⟨testPerformer.pos.x + chrA.bearing.x,
               testPerformer.pos.y - chrA.bearing.y⟩])).2 } :=
  ⟨rfl, ((print_characterization testPerformer 'a').2 chrA rfl).1⟩

theorem removeFirst_of_forall_not (t : Vec2) (l : List Drawable)
    (h : ∀ d ∈ l, ¬(d.pos.y = t.y ∧ t.x ≤ d.pos.x)) :
    removeFirst t l = none := by
  induction l with
  | nil => rfl
  | cons a l ih =>
    rw [removeFirst, if_neg (h a (List.mem_cons_self a l)),
      ih fun d hd => h d (List.mem_cons_of_mem a hd)]
    rfl

theorem removeFirst_first_match (t : Vec2) (l1 : List Drawable) (d : Drawable)
    (l2 : List Drawable) (h1 : ∀ x ∈ l1, ¬(x.pos.y = t.y ∧ t.x ≤ x.pos.x))
    (h2 : d.pos.y = t.y ∧ t.x ≤ d.pos.x) :
    removeFirst t (l1 ++ d :: l2) = some (d.pos, l1 ++ l2) := by
  induction l1 with
  | nil => rw [List.nil_append, removeFirst, if_pos h2, List.nil_append]
  | cons a l1 ih =>
    rw [List.cons_append, removeFirst,
      if_neg (h1 a (List.mem_cons_self a l1)),
      ih fun x hx => h1 x (List.mem_cons_of_mem a hx)]
    rfl

/-- Claim C6: on control byte 8 the deletion target (t, s1) is the pen stepped
back by half the pitch and normalized (the normalization threading the
screen); the screen is scanned in order for the first Drawable in the
target row with x at least the target x; if none matches the pen is kept,
otherwise exactly that Drawable is removed and the pen is set to its former
position; either way the pen is re-normalized afterwards. -/
theorem backspace_characterization (p : Performer) (t : Vec2)
    (s1 : List Drawable)
    (ht : update_pos ⟨p.pos.x - p.font.scale / 2, p.pos.y⟩ p.font.scale
        p.screen = (t, s1)) :
    ((∀ d ∈ s1, ¬(d.pos.y = t.y ∧ t.x ≤ d.pos.x)) →
      advance_byte p 8 =
        { p with pos := (update_pos p.pos p.font.scale s1).1,
                 screen := (update_pos p.pos p.font.scale s1).2 }) ∧
    (∀ l1 d l2, s1 = l1 ++ d :: l2 →
      (∀ x ∈ l1, ¬(x.pos.y = t.y ∧ t.x ≤ x.pos.x)) →
      (d.pos.y = t.y ∧ t.x ≤ d.pos.x) →
      advance_byte p 8 =
        { p with pos := (update_pos d.pos p.font.scale (l1 ++ l2)).1,
                 screen := (update_pos d.pos p.font.scale (l1 ++ l2)).2 }) := by
  have hadv : advance_byte p 8 = backspace p := by rw [advance_byte]; rfl
  constructor
  · intro hnone
    rw [hadv, backspace, ht, removeFirst_of_forall_not t s1 hnone]
  · intro l1 d l2 hs hl1 hd
    subst hs
    rw [hadv, backspace, ht, removeFirst_first_match t l1 d l2 hl1 hd]

theorem backspace_characterization_witness :
    (backspace_target_performer.pos = ⟨11/20, 0⟩ ∧
      update_pos ⟨backspace_target_performer.pos.x -
            backspace_target_performer.font.scale / 2,
          backspace_target_performer.pos.y⟩
          backspace_target_performer.font.scale
          backspace_target_performer.screen =
        (⟨1/2, 0⟩, [Drawable.mk RenderItem.space ⟨1/2, 0⟩])) ∧
    (advance_byte backspace_target_performer 8).pos = ⟨1/2, 0⟩ ∧
    (advance_byte backspace_target_performer 8).screen = [] := by
  have ht : update_pos ⟨backspace_target_performer.pos.x -
        backspace_target_performer.font.scale / 2,
      backspace_target_performer.pos.y⟩
      backspace_target_performer.font.scale
      backspace_target_performer.screen =
      (⟨1/2, 0⟩, [Drawable.mk RenderItem.space ⟨1/2, 0⟩]) := by
    norm_num [backspace_target_performer, testFont, update_pos, update_x,
      update_y]
  have h := (backspace_characterization backspace_target_performer ⟨1/2, 0⟩
      [Drawable.mk RenderItem.space ⟨1/2, 0⟩] ht).2
      [] (Drawable.mk RenderItem.space ⟨1/2, 0⟩) [] rfl (by simp)
      ⟨rfl, le_refl _⟩
  rw [h]
  refine ⟨⟨rfl, ht⟩, ?_, ?_⟩ <;>
    norm_num [backspace_target_performer, testFont, update_pos, update_x,
      update_y]

/-- Claim C3, counterexample: printing the scenario-1 glyph (bearing
(1/100, 1/20), width 2/25) from pen (0, 0) on an empty screen and then
running the backspace handler does not restore the state: the glyph
Drawable lives in row -1/20 while the pen row is 0, so the scan matches
nothing; the pen stays at (9/100, 0) and the Drawable stays on screen. -/
theorem print_backspace_counterexample :
    (advance_byte (print testPerformer 'a') 8).pos ≠ testPerformer.pos ∧
    (advance_byte (print testPerformer 'a') 8).screen ≠
      testPerformer.screen := by
  have hc : (Char.toNat 'a') % 256 = 97 := rfl
  have e1 : print testPerformer 'a' =
      Performer.mk testFont
        [Drawable.mk (RenderItem.chr chrA) ⟨1/100, -1/20⟩]
        ⟨0, 0, 0, 0⟩ ⟨9/100, 0⟩ := by
    norm_num [print, hc, add_chr, update_pos, update_x, update_y,
      testPerformer, testFont, chrA]
  have e2 : advance_byte (print testPerformer 'a') 8 =
      Performer.mk testFont
        [Drawable.mk (RenderItem.chr chrA) ⟨1/100, -1/20⟩]
        ⟨0, 0, 0, 0⟩ ⟨9/100, 0⟩ := by
    rw [e1]
    norm_num [advance_byte, backspace, removeFirst, update_pos, update_x,
      update_y, testFont]
  rw [e2]
  constructor
  · intro h
    have := congrArg Vec2.x h
    norm_num [testPerformer] at this
  · intro h
    simp [testPerformer] at h

/-- Claim C3, amended: print followed by backspace restores the exact pre-print
state only under restrictive conditions: the glyph has zero bearing (so the
Drawable lands in the pen row at the pre-print pen position) and width at
most half the pitch (so the scan target does not pass the Drawable), no
Drawable already on screen matches the scan first, and no wrap or scroll
fires in any of the three normalizations involved. -/
theorem print_backspace_inverse (p : Performer) (c : Char) (chr : Chr)
    (hfont : p.font.get_chr_by_id (c.toNat % 256) = some chr)
    (hb : chr.bearing = ⟨0, 0⟩)
    (hw0 : 0 ≤ chr.dimensions.x)
    (hw : chr.dimensions.x ≤ p.font.scale / 2)
    (hs : 0 < p.font.scale)
    (hx1 : -1 ≤ p.pos.x + chr.dimensions.x - p.font.scale / 2)
    (hx2 : p.pos.x + chr.dimensions.x ≤ 1 - p.font.scale / 2)
    (hy : p.pos.y ≤ 1 - p.font.scale)
    (hscreen : ∀ d ∈ p.screen,
      ¬(d.pos.y = p.pos.y ∧
        p.pos.x + chr.dimensions.x - p.font.scale / 2 ≤ d.pos.x)) :
    advance_byte (print p c) 8 = p := by
  have hbx : chr.bearing.x = 0 := by rw [hb]
  have hby : chr.bearing.y = 0 := by rw [hb]
  have e1 : print p c =
      Performer.mk p.font
        (p.screen ++ [Drawable.mk (RenderItem.chr chr) ⟨p.pos.x, p.pos.y⟩])
        p.color ⟨p.pos.x + chr.dimensions.x, p.pos.y⟩ := by
    rw [print, hfont]
    simp only [add_chr, hbx, hby, add_zero, sub_zero]
    rw [update_pos_id_xy _ _ _ _ (by linarith) hx2 hy]
  have e2 : advance_byte (print p c) 8 = backspace (print p c) := by
    rw [advance_byte]; rfl
  rw [e2, e1, backspace]
  dsimp only
  rw [update_pos_id_xy _ _ _ _ hx1 (by linarith) hy]
  have hrem : removeFirst
      (⟨p.pos.x + chr.dimensions.x - p.font.scale / 2, p.pos.y⟩ : Vec2)
      (p.screen ++ [Drawable.mk (RenderItem.chr chr) ⟨p.pos.x, p.pos.y⟩]) =
      some (⟨p.pos.x, p.pos.y⟩, p.screen ++ []) :=
    removeFirst_first_match _ p.screen _ [] hscreen ⟨rfl, by
      show p.pos.x + chr.dimensions.x - p.font.scale / 2 ≤ p.pos.x
      linarith⟩
  rw [hrem, List.append_nil]
  dsimp only
  rw [update_pos_id_xy _ _ _ _ (by linarith) (by linarith) hy]

theorem print_backspace_inverse_witness :
    testPerformer.font.get_chr_by_id ((Char.toNat 'b') % 256) = some chrB ∧
    chrB.bearing = ⟨0, 0⟩ ∧
    (0 : ℚ) ≤ chrB.dimensions.x ∧
    chrB.dimensions.x ≤ testPerformer.font.scale / 2 ∧
    (0 : ℚ) < testPerformer.font.scale ∧
    (-1 : ℚ) ≤ testPerformer.pos.x + chrB.dimensions.x -
      testPerformer.font.scale / 2 ∧
    testPerformer.pos.x + chrB.dimensions.x ≤ 1 -
      testPerformer.font.scale / 2 ∧
    testPerformer.pos.y ≤ 1 - testPerformer.font.scale ∧
    advance_byte (print testPerformer 'b') 8 = testPerformer :=
  ⟨rfl, rfl, by norm_num [chrB],
   by norm_num [chrB, testPerformer, testFont],
   by norm_num [testPerformer, testFont],
   by norm_num [chrB, testPerformer, testFont],
   by norm_num [chrB, testPerformer, testFont],
   by norm_num [testPerformer, testFont],
   print_backspace_inverse testPerformer 'b' chrB rfl rfl
     (by norm_num [chrB])
     (by norm_num [chrB, testPerformer, testFont])
     (by norm_num [testPerformer, testFont])
     (by norm_num [chrB, testPerformer, testFont])
     (by norm_num [chrB, testPerformer, testFont])
     (by norm_num [testPerformer, testFont])
     (by simp [testPerformer])⟩

theorem update_x_wrap_witness :
    (1/10 : ℚ) < 2 ∧ (0 : ℚ) < 1/100 ∧
    (1/100 : ℚ) ≤ 1 + (1/10) / 2 ∧
    (Vec2.mk (24/25) 37).x = 1 - (1/10) / 2 + 1/100 ∧
    update_x ⟨24/25, 37⟩ (1/10) = ⟨-1 + 1/100, 37 + 1/10⟩ :=
  ⟨by norm_num, by norm_num, by norm_num, by norm_num,
   update_x_wrap ⟨24/25, 37⟩ (1/10) (1/100) (by norm_num)
     (by norm_num) (by norm_num) (by norm_num)⟩
